import Mathlib

/-!
# hello_drv: a loadable "Hello World" kernel module

Shallow embedding of `src/hello_drv.c`.

The translation unit consists of

* `hello_init`  : `static int __init hello_init(void)`, one `printk` and `return 0`;
* `hello_exit`  : `static void __exit hello_exit(void)`, one `printk`;
* `module_init(hello_init); module_exit(hello_exit);` : the registration;
* `MODULE_LICENSE / MODULE_AUTHOR / MODULE_DESCRIPTION` : the metadata.

The C functions are stateful (they write to the kernel log); they are embedded
by explicit state passing over the record `State`.
-/

namespace HelloDrv

/-! ## Data model -/

/-- Severity of a kernel log record.  The source only uses `KERN_INFO`; the
other constructors are the remaining kernel log levels, listed so that
"info severity" is a real choice among several. -/
inductive Severity where
  | KERN_EMERG
  | KERN_ALERT
  | KERN_CRIT
  | KERN_ERR
  | KERN_WARNING
  | KERN_NOTICE
  | KERN_INFO
  | KERN_DEBUG
deriving DecidableEq, Repr

/-- One record of the Logging Sink: a severity and the text handed to `printk`
(the text is kept exactly as written in the source, trailing newline included). -/
structure LogRecord where
  level : Severity
  text : String
deriving DecidableEq, Repr

/-- The Metadata Block: the three `.modinfo` fields the source declares. -/
structure ModInfo where
  license : String
  author : String
  description : String
deriving DecidableEq, Repr

/-- Names of the functions defined in `hello_drv.c`. -/
inductive FnSym where
  | hello_init
  | hello_exit
deriving DecidableEq, Repr

/-- The Registration: which function symbol sits in the init slot of the
loader and which one in the exit slot. -/
structure Registration where
  init : FnSym
  exit : FnSym
deriving DecidableEq, Repr

/-- Everything the data model of the module names: the (host owned)
Logging Sink, the Metadata Block and the Registration. -/
structure State where
  sink : List LogRecord
  modinfo : ModInfo
  registration : Registration
deriving DecidableEq, Repr

/-- Value produced by calling a C function of this file: an `int` or nothing
(`void`). -/
inductive RetVal where
  | int (v : Int)
  | void
deriving DecidableEq, Repr

/-! ## The kernel log -/

/-- Modelled from the spec: `printk` is the host's Logging Sink operation
"append line with severity level" (its definition lives in the kernel, not in
this repository).  The C call `printk(KERN_INFO "text")` passes the level as a
prefix of the format string; here level and text are two arguments.  The `int`
that the kernel's `printk` returns is discarded by both callers and is not
modelled. -/
def printk (level : Severity) (text : String) (st : State) : State :=
  State.mk (st.sink ++ [LogRecord.mk level text]) st.modinfo st.registration

/-! ## The two hooks (`hello_drv.c`, lines 10-26) -/

/-- Entry Hook.
```c
static int __init hello_init(void)
{
    printk(KERN_INFO "[Driver] Hello World! I am entering Kernel Space!\n");
    return 0;
}
``` -/
def hello_init (st : State) : Int × State :=
  let st1 := printk Severity.KERN_INFO "[Driver] Hello World! I am entering Kernel Space!\n" st
  (0, st1)

/-- Exit Hook.  A `void` function: only the new state is produced.
```c
static void __exit hello_exit(void)
{
    printk(KERN_INFO "[Driver] Goodbye! I am leaving Kernel Space!\n");
}
``` -/
def hello_exit (st : State) : State :=
  printk Severity.KERN_INFO "[Driver] Goodbye! I am leaving Kernel Space!\n" st

/-! ## Registration and metadata (`hello_drv.c`, lines 32-40) -/

/-- The argument of `module_init(hello_init);`. -/
def module_init : FnSym := FnSym.hello_init

/-- The argument of `module_exit(hello_exit);`. -/
def module_exit : FnSym := FnSym.hello_exit

/-- The Registration the two macro lines produce. -/
def registration : Registration := Registration.mk module_init module_exit

/-- The argument of `MODULE_LICENSE("GPL");`. -/
def MODULE_LICENSE : String := "GPL"

/-- The argument of `MODULE_AUTHOR("LemonSuqing");`. -/
def MODULE_AUTHOR : String := "LemonSuqing"

/-- The argument of `MODULE_DESCRIPTION("A simple Hello World Module");`. -/
def MODULE_DESCRIPTION : String := "A simple Hello World Module"

/-- The Metadata Block the three macro lines produce. -/
def modinfo : ModInfo := ModInfo.mk MODULE_LICENSE MODULE_AUTHOR MODULE_DESCRIPTION

/-- The module image as seen right after it was built and placed next to a
Logging Sink with content `sink`: the declared metadata and registration. -/
def image (sink : List LogRecord) : State := State.mk sink modinfo registration

/-- Calling a function of this file by its symbol, the way the host does
through a registration slot: `hello_init` yields its `int` status,
`hello_exit` yields nothing. -/
def hello_drv : FnSym → State → RetVal × State
  | FnSym.hello_init, st => (RetVal.int (hello_init st).1, (hello_init st).2)
  | FnSym.hello_exit, st => (RetVal.void, hello_exit st)

/-- Running a sequence of hook calls, each one by its symbol, from left to
right.  Every trace the host can produce is such a sequence. -/
def execAll (calls : List FnSym) (st : State) : State :=
  calls.foldl (fun s f => (hello_drv f s).2) st

/-! ## The host lifecycle -/

/-- Modelled from the spec: the Activation State of section 3, "a two-state
machine, Unloaded, Active, Unloaded", held by the host. -/
inductive Activation where
  | Unloaded
  | Active
deriving DecidableEq, Repr

/-- Modelled from the spec: what the host can be asked to do with the
extension: load it (`insmod`) or unload it (`rmmod`). -/
inductive Request where
  | load
  | unload
deriving DecidableEq, Repr

/-- Modelled from the spec: a hook invocation made by the host, as counted by
the "host-simulation harness" of section 8: an Entry Hook invocation together
with the status it returned, or an Exit Hook invocation. -/
inductive Event where
  | entry (status : RetVal)
  | exit
deriving DecidableEq, Repr

/-- Modelled from the spec: the host: its Activation State, the state the
hooks run on, and the record of the hook invocations made so far. -/
structure Host where
  activation : Activation
  state : State
  trace : List Event
deriving DecidableEq, Repr

/-- Modelled from the spec: the host before any load. -/
def Host.boot (st : State) : Host := Host.mk Activation.Unloaded st []

/-- Modelled from the spec: one request served by the host (sections 2, 4.1
and 4.2).

* load, while Unloaded: the host reads the Metadata Block; if it is acceptable
  (`accept`, host policy, left open by the spec) it invokes the hook in the init
  slot of the Registration; status zero means "accept the load and transition to
  Active", anything else means "reject the load", and the host does not call the
  Exit Hook for it;
* unload, while Active: the host invokes the hook in the exit slot and the
  extension is Unloaded;
* a load while Active and an unload while Unloaded invoke no hook ("at most
  once per load", "only if Entry Hook previously returned success").

`prog` gives the code behind each function symbol; for this module it is
`hello_drv`. -/
def Host.step (accept : ModInfo → Bool) (prog : FnSym → State → RetVal × State)
    (h : Host) : Request → Host
  | Request.load =>
    match h.activation with
    | Activation.Active => h
    | Activation.Unloaded =>
      if accept h.state.modinfo then
        let r := prog h.state.registration.init h.state
        Host.mk (if r.1 = RetVal.int 0 then Activation.Active else Activation.Unloaded)
          r.2 (h.trace ++ [Event.entry r.1])
      else h
  | Request.unload =>
    match h.activation with
    | Activation.Unloaded => h
    | Activation.Active =>
      let r := prog h.state.registration.exit h.state
      Host.mk Activation.Unloaded r.2 (h.trace ++ [Event.exit])

/-- Modelled from the spec: the host serving a sequence of requests. -/
def Host.run (accept : ModInfo → Bool) (prog : FnSym → State → RetVal × State)
    (h : Host) (reqs : List Request) : Host :=
  reqs.foldl (Host.step accept prog) h

/-- A hook pair whose Entry Hook fails with `-12` (`-ENOMEM`) when the sink
is still empty and succeeds like `hello_init` otherwise; used to exercise the
rejected-load path of the host. -/
def flaky_drv : FnSym → State → RetVal × State
  | FnSym.hello_init, st =>
    if st.sink.isEmpty then
      (RetVal.int (-12), printk Severity.KERN_ERR "[Driver] out of memory\n" st)
    else hello_drv FnSym.hello_init st
  | FnSym.hello_exit, st => hello_drv FnSym.hello_exit st

/-- The host running this module: booted on the module image next to a sink
with content `sink`, then serving `reqs`. -/
def hello_host (accept : ModInfo → Bool) (sink : List LogRecord) (reqs : List Request) : Host :=
  Host.run accept hello_drv (Host.boot (image sink)) reqs

/-! ## Vocabulary for the statements -/

/-- A trace in which every Exit Hook invocation comes directly after an Entry
Hook invocation that returned status `0`. -/
def ExitGuarded (t : List Event) : Prop :=
  ∀ pre post : List Event, t = pre ++ Event.exit :: post →
    ∃ pre' : List Event, pre = pre' ++ [Event.entry (RetVal.int 0)]

/-- Number of successful activations recorded in a trace. -/
def activations (t : List Event) : Nat := t.count (Event.entry (RetVal.int 0))

/-- Number of deactivations recorded in a trace. -/
def deactivations (t : List Event) : Nat := t.count Event.exit

/-- The record that announces entering. -/
def enteringLine : LogRecord :=
  LogRecord.mk Severity.KERN_INFO "[Driver] Hello World! I am entering Kernel Space!\n"

/-- The record that announces leaving. -/
def leavingLine : LogRecord :=
  LogRecord.mk Severity.KERN_INFO "[Driver] Goodbye! I am leaving Kernel Space!\n"

/-- The invariant of the host, whatever code sits behind the hooks. -/
def HostInv (h : Host) : Prop :=
  ExitGuarded h.trace ∧
    (h.activation = Activation.Active →
      ∃ t : List Event, h.trace = t ++ [Event.entry (RetVal.int 0)])

/-- The invariant of the host while it runs this module from a sink with
content `sink`. -/
def HelloInv (sink : List LogRecord) (h : Host) : Prop :=
  h.state.modinfo = modinfo ∧ h.state.registration = registration
  ∧ h.state.sink.count enteringLine = sink.count enteringLine + activations h.trace
  ∧ h.state.sink.count leavingLine = sink.count leavingLine + deactivations h.trace
  ∧ activations h.trace
      = deactivations h.trace + (if h.activation = Activation.Active then 1 else 0)
  ∧ ∀ e ∈ h.trace, e = Event.entry (RetVal.int 0) ∨ e = Event.exit

/-! ## Theorems -/

/-- C1: the Entry Hook `hello_init` always succeeds: in every state it is
invoked in it returns the status code `0`, and `0` is the status the host
receives when it calls the hook by its symbol. -/
theorem hello_init_returns_zero (st : State) :
    (hello_init st).1 = 0 ∧ (hello_drv FnSym.hello_init st).1 = RetVal.int 0 :=
  ⟨rfl, rfl⟩

/-- C2: one invocation of `hello_init` appends exactly one record to the
sink and keeps what was there: the sink afterwards is the sink before followed
by the single `KERN_INFO` line "[Driver] Hello World! I am entering Kernel
Space!" (newline terminated). -/
theorem hello_init_appends_entering (st : State) :
    (hello_init st).2.sink = st.sink ++
      [LogRecord.mk Severity.KERN_INFO "[Driver] Hello World! I am entering Kernel Space!\n"]
    ∧ (hello_init st).2.sink.length = st.sink.length + 1
    ∧ (hello_init st).2.sink.take st.sink.length = st.sink := by
  refine ⟨rfl, ?_, ?_⟩
  · simp [hello_init, printk]
  · simp [hello_init, printk]

/-- C3: one invocation of `hello_exit` appends exactly one record to the
sink and keeps what was there: the sink afterwards is the sink before followed
by the single `KERN_INFO` line "[Driver] Goodbye! I am leaving Kernel Space!"
(newline terminated); called through its symbol the hook yields no value. -/
theorem hello_exit_appends_leaving (st : State) :
    (hello_exit st).sink = st.sink ++
      [LogRecord.mk Severity.KERN_INFO "[Driver] Goodbye! I am leaving Kernel Space!\n"]
    ∧ (hello_exit st).sink.length = st.sink.length + 1
    ∧ (hello_exit st).sink.take st.sink.length = st.sink
    ∧ (hello_drv FnSym.hello_exit st).1 = RetVal.void := by
  refine ⟨rfl, ?_, ?_, rfl⟩
  · simp [hello_exit, printk]
  · simp [hello_exit, printk]

/-! ### Frame lemmas shared by the statements below -/

theorem hello_init_eq (st : State) :
    hello_init st = (0, State.mk (st.sink ++ [enteringLine]) st.modinfo st.registration) := rfl

theorem hello_exit_eq (st : State) :
    hello_exit st = State.mk (st.sink ++ [leavingLine]) st.modinfo st.registration := rfl

theorem hello_drv_modinfo (f : FnSym) (st : State) :
    (hello_drv f st).2.modinfo = st.modinfo := by
  cases f <;> rfl

theorem hello_drv_registration (f : FnSym) (st : State) :
    (hello_drv f st).2.registration = st.registration := by
  cases f <;> rfl

theorem execAll_modinfo (calls : List FnSym) (st : State) :
    (execAll calls st).modinfo = st.modinfo := by
  induction calls generalizing st with
  | nil => rfl
  | cons f fs ih =>
    have h := ih (hello_drv f st).2
    rw [hello_drv_modinfo] at h
    exact h

/-- C6: the Registration binds exactly the two functions of the file and
binds them the right way round: the init slot holds `hello_init` (called
through the slot it returns a status, `0`, and logs the entering line), the
exit slot holds `hello_exit` (called through the slot it returns nothing and
logs the leaving line); the two slots hold different hooks and are not
swapped. -/
theorem registration_binds_hooks :
    registration.init = FnSym.hello_init ∧ registration.exit = FnSym.hello_exit
    ∧ registration.init ≠ registration.exit
    ∧ registration ≠ Registration.mk FnSym.hello_exit FnSym.hello_init
    ∧ (∀ f : FnSym, f = registration.init ∨ f = registration.exit)
    ∧ (∀ st : State, hello_drv registration.init st =
        (RetVal.int 0, State.mk (st.sink ++ [enteringLine]) st.modinfo st.registration))
    ∧ (∀ st : State, hello_drv registration.exit st =
        (RetVal.void, State.mk (st.sink ++ [leavingLine]) st.modinfo st.registration)) := by
  refine ⟨rfl, rfl, by decide, by decide, ?_, fun _ => rfl, fun _ => rfl⟩
  intro f
  cases f
  · exact Or.inl rfl
  · exact Or.inr rfl

/-- C7: a full load-then-unload cycle driven through the registered hooks,
starting from any sink content `s`: the Entry Hook returns `0` and the sink
ends as `s` followed by exactly the entering line and then the leaving line;
from an empty sink the final sink is exactly these two records. -/
theorem load_unload_cycle (s : List LogRecord) :
    (hello_drv (image s).registration.init (image s)).1 = RetVal.int 0
    ∧ (hello_drv (hello_drv (image s).registration.init (image s)).2.registration.exit
        (hello_drv (image s).registration.init (image s)).2).2.sink
        = s ++ [enteringLine, leavingLine]
    ∧ (hello_drv (hello_drv (image []).registration.init (image [])).2.registration.exit
        (hello_drv (image []).registration.init (image [])).2).2.sink
        = [enteringLine, leavingLine] := by
  refine ⟨rfl, ?_, rfl⟩
  show (s ++ [enteringLine]) ++ [leavingLine] = s ++ [enteringLine, leavingLine]
  simp

/-- C9: the hooks keep no state of their own: each one leaves the Metadata
Block and the Registration as they were and changes the Logging Sink only, and
the status and the appended record of each hook are the same whatever the state
it is invoked in (so whatever ran before). -/
theorem hooks_change_only_sink (st st' : State) :
    (hello_init st).2.modinfo = st.modinfo
    ∧ (hello_init st).2.registration = st.registration
    ∧ (hello_exit st).modinfo = st.modinfo
    ∧ (hello_exit st).registration = st.registration
    ∧ (hello_init st).1 = (hello_init st').1
    ∧ (hello_init st).2.sink.drop st.sink.length
        = (hello_init st').2.sink.drop st'.sink.length
    ∧ (hello_exit st).sink.drop st.sink.length
        = (hello_exit st').sink.drop st'.sink.length
    ∧ (hello_init (hello_exit st)).1 = (hello_init st).1
    ∧ (hello_init (hello_init st).2).1 = (hello_init st).1 := by
  refine ⟨rfl, rfl, rfl, rfl, rfl, ?_, ?_, rfl, rfl⟩
  · simp [hello_init_eq]
  · simp [hello_exit_eq]

/-- C10: the text written by `hello_init` and the text written by
`hello_exit` each hold exactly one newline character, which is their last
character, each starts with "[Driver] ", and the two texts differ. -/
theorem messages_are_single_distinct_lines (st : State) :
    ∃ t₁ t₂ : String,
      (hello_init st).2.sink = st.sink ++ [LogRecord.mk Severity.KERN_INFO t₁]
      ∧ (hello_exit st).sink = st.sink ++ [LogRecord.mk Severity.KERN_INFO t₂]
      ∧ t₁.toList.count (Char.ofNat 10) = 1 ∧ t₁.toList.getLast? = some (Char.ofNat 10)
      ∧ t₂.toList.count (Char.ofNat 10) = 1 ∧ t₂.toList.getLast? = some (Char.ofNat 10)
      ∧ "[Driver] ".toList <+: t₁.toList ∧ "[Driver] ".toList <+: t₂.toList
      ∧ t₁ ≠ t₂ :=
  ⟨"[Driver] Hello World! I am entering Kernel Space!\n",
   "[Driver] Goodbye! I am leaving Kernel Space!\n",
   rfl, rfl, by decide, by decide, by decide, by decide, by decide, by decide, by decide⟩

/-! ### The host never calls the Exit Hook of a load it did not accept -/

theorem exitGuarded_nil : ExitGuarded [] := by
  intro pre post h
  cases pre <;> simp at h

theorem exitGuarded_entry (t : List Event) (r : RetVal) (ht : ExitGuarded t) :
    ExitGuarded (t ++ [Event.entry r]) := by
  intro pre post h
  rcases List.eq_nil_or_concat post with hp | ⟨L, b, hp⟩
  · subst hp
    have h2 := (List.append_inj' h (by simp)).2
    simp at h2
  · subst hp
    have h1 : t ++ [Event.entry r] = (pre ++ Event.exit :: L) ++ [b] := by
      rw [h]; simp
    exact ht pre L (List.append_inj' h1 (by simp)).1

theorem exitGuarded_exit (u : List Event) (hu : ExitGuarded u)
    (hlast : ∃ t : List Event, u = t ++ [Event.entry (RetVal.int 0)]) :
    ExitGuarded (u ++ [Event.exit]) := by
  intro pre post h
  rcases List.eq_nil_or_concat post with hp | ⟨L, b, hp⟩
  · subst hp
    have h1 := (List.append_inj' h (by simp)).1
    rw [← h1]
    exact hlast
  · subst hp
    have h1 : u ++ [Event.exit] = (pre ++ Event.exit :: L) ++ [b] := by
      rw [h]; simp
    exact hu pre L (List.append_inj' h1 (by simp)).1

theorem hostInv_boot (st : State) : HostInv (Host.boot st) :=
  ⟨exitGuarded_nil, fun h => by simp [Host.boot] at h⟩

theorem hostInv_step (accept : ModInfo → Bool) (prog : FnSym → State → RetVal × State)
    (h : Host) (req : Request) (hi : HostInv h) : HostInv (Host.step accept prog h req) := by
  obtain ⟨a, st, tr⟩ := h
  obtain ⟨hg, hl⟩ := hi
  cases req <;> cases a
  · -- load while Unloaded
    simp only [Host.step]
    by_cases hacc : accept st.modinfo = true
    · simp only [hacc, if_true]
      refine ⟨exitGuarded_entry tr _ hg, ?_⟩
      intro hact
      by_cases hr : (prog st.registration.init st).1 = RetVal.int 0
      · exact ⟨tr, by simp [hr]⟩
      · simp [hr] at hact
    · simp only [hacc]
      exact ⟨hg, hl⟩
  · -- load while Active
    exact ⟨hg, hl⟩
  · -- unload while Unloaded
    exact ⟨hg, hl⟩
  · -- unload while Active
    simp only [Host.step]
    exact ⟨exitGuarded_exit tr hg (hl rfl), fun hact => by simp at hact⟩

theorem hostInv_run (accept : ModInfo → Bool) (prog : FnSym → State → RetVal × State)
    (reqs : List Request) (h : Host) (hi : HostInv h) :
    HostInv (Host.run accept prog h reqs) := by
  induction reqs generalizing h with
  | nil => exact hi
  | cons r rs ih => exact ih (Host.step accept prog h r) (hostInv_step accept prog h r hi)

/-! ### Each logging side effect happens once per transition -/

theorem helloInv_boot (sink : List LogRecord) : HelloInv sink (Host.boot (image sink)) := by
  refine ⟨rfl, rfl, ?_, ?_, ?_, ?_⟩ <;> simp [Host.boot, image, activations, deactivations]

theorem hello_step_load (accept : ModInfo → Bool) (st : State) (tr : List Event)
    (hacc : accept st.modinfo = true) (hr : st.registration = registration) :
    Host.step accept hello_drv (Host.mk Activation.Unloaded st tr) Request.load
      = Host.mk Activation.Active
          (State.mk (st.sink ++ [enteringLine]) st.modinfo st.registration)
          (tr ++ [Event.entry (RetVal.int 0)]) := by
  obtain ⟨sk, mi, rg⟩ := st
  simp only at hr hacc
  subst hr
  simp only [Host.step, hacc, if_true]
  rfl

theorem hello_step_unload (accept : ModInfo → Bool) (st : State) (tr : List Event)
    (hr : st.registration = registration) :
    Host.step accept hello_drv (Host.mk Activation.Active st tr) Request.unload
      = Host.mk Activation.Unloaded
          (State.mk (st.sink ++ [leavingLine]) st.modinfo st.registration)
          (tr ++ [Event.exit]) := by
  obtain ⟨sk, mi, rg⟩ := st
  simp only at hr
  subst hr
  rfl

theorem helloInv_step (accept : ModInfo → Bool) (sink : List LogRecord)
    (h : Host) (req : Request) (hi : HelloInv sink h) :
    HelloInv sink (Host.step accept hello_drv h req) := by
  obtain ⟨a, st, tr⟩ := h
  obtain ⟨hm, hr, he, hv, hc, hall⟩ := hi
  have hne : enteringLine ≠ leavingLine := by decide
  cases req <;> cases a
  · -- load while Unloaded
    by_cases hacc : accept st.modinfo = true
    · rw [hello_step_load accept st tr hacc hr]
      simp only [activations, deactivations] at he hv hc
      refine ⟨hm, hr, ?_, ?_, ?_, ?_⟩ <;> simp only [activations, deactivations]
      · simp [List.count_append] at he ⊢
        omega
      · simp [List.count_append, hne] at hv ⊢
        exact hv
      · simp [List.count_append] at hc ⊢
        exact hc
      · intro e hmem
        rcases List.mem_append.1 hmem with h1 | h1
        · exact hall e h1
        · exact Or.inl (by simpa using h1)
    · have hs : Host.step accept hello_drv (Host.mk Activation.Unloaded st tr) Request.load
          = Host.mk Activation.Unloaded st tr := by
        simp only [Host.step, hacc]
        rfl
      rw [hs]
      exact ⟨hm, hr, he, hv, hc, hall⟩
  · exact ⟨hm, hr, he, hv, hc, hall⟩
  · exact ⟨hm, hr, he, hv, hc, hall⟩
  · -- unload while Active
    rw [hello_step_unload accept st tr hr]
    simp only [activations, deactivations] at he hv hc
    refine ⟨hm, hr, ?_, ?_, ?_, ?_⟩ <;> simp only [activations, deactivations]
    · simp [List.count_append, hne.symm] at he ⊢
      exact he
    · simp [List.count_append] at hv ⊢
      omega
    · simp [List.count_append] at hc ⊢
      omega
    · intro e hmem
      rcases List.mem_append.1 hmem with h1 | h1
      · exact hall e h1
      · exact Or.inr (by simpa using h1)

theorem helloInv_run (accept : ModInfo → Bool) (sink : List LogRecord)
    (reqs : List Request) (h : Host) (hi : HelloInv sink h) :
    HelloInv sink (Host.run accept hello_drv h reqs) := by
  induction reqs generalizing h with
  | nil => exact hi
  | cons r rs ih => exact ih (Host.step accept hello_drv h r) (helloInv_step accept sink h r hi)

/-- C4: the license-tag of the Metadata Block is the non-empty sentinel "GPL"
(the record being license "GPL", author "LemonSuqing", description "A simple
Hello World Module"), and it stays so in every state of the lifecycle: after
any sequence of hook invocations on the module image the Metadata Block is
still the declared one, and so it is in every state the host reaches while
serving load and unload requests. -/
theorem license_tag_is_GPL :
    modinfo.license = "GPL" ∧ modinfo.license ≠ ""
    ∧ modinfo = ModInfo.mk "GPL" "LemonSuqing" "A simple Hello World Module"
    ∧ (∀ (sink : List LogRecord) (calls : List FnSym),
        (execAll calls (image sink)).modinfo = modinfo
        ∧ (execAll calls (image sink)).modinfo.license = "GPL")
    ∧ (∀ (accept : ModInfo → Bool) (sink : List LogRecord) (reqs : List Request),
        (hello_host accept sink reqs).state.modinfo.license = "GPL") := by
  refine ⟨rfl, by decide, rfl, ?_, ?_⟩
  · intro sink calls
    have h : (execAll calls (image sink)).modinfo = modinfo :=
      execAll_modinfo calls (image sink)
    exact ⟨h, by rw [h]; rfl⟩
  · intro accept sink reqs
    have hi : HelloInv sink (hello_host accept sink reqs) :=
      helloInv_run accept sink reqs (Host.boot (image sink)) (helloInv_boot sink)
    rw [hi.1]
    rfl

/-- C5: the Exit Hook is never invoked for a load whose Entry Hook returned
failure.  Whatever code sits behind the two hooks and whatever state the host
boots on, in every trace the host can reach (i) an Exit Hook invocation that
directly follows an Entry Hook invocation follows one that returned `0`, and
(ii) every Exit Hook invocation does directly follow an Entry Hook invocation
that returned `0`.  For this module, moreover, every Entry Hook invocation
returned `0` and the leaving lines added to the sink are exactly as many as the
Exit Hook invocations, so no leaving line belongs to a rejected load. -/
theorem exit_never_follows_rejected_load :
    (∀ (accept : ModInfo → Bool) (prog : FnSym → State → RetVal × State) (st : State)
        (reqs : List Request) (r : RetVal) (pre post : List Event),
        (Host.run accept prog (Host.boot st) reqs).trace
            = pre ++ Event.entry r :: Event.exit :: post →
        r = RetVal.int 0)
    ∧ (∀ (accept : ModInfo → Bool) (prog : FnSym → State → RetVal × State) (st : State)
        (reqs : List Request) (pre post : List Event),
        (Host.run accept prog (Host.boot st) reqs).trace = pre ++ Event.exit :: post →
        ∃ pre' : List Event, pre = pre' ++ [Event.entry (RetVal.int 0)])
    ∧ (∀ (accept : ModInfo → Bool) (sink : List LogRecord) (reqs : List Request),
        (∀ e ∈ (hello_host accept sink reqs).trace,
            e = Event.entry (RetVal.int 0) ∨ e = Event.exit)
        ∧ (hello_host accept sink reqs).state.sink.count leavingLine
            = sink.count leavingLine + deactivations (hello_host accept sink reqs).trace) := by
  refine ⟨?_, ?_, ?_⟩
  · intro accept prog st reqs r pre post h
    have hg := (hostInv_run accept prog reqs (Host.boot st) (hostInv_boot st)).1
    have h1 : (Host.run accept prog (Host.boot st) reqs).trace
        = (pre ++ [Event.entry r]) ++ Event.exit :: post := by
      rw [h]; simp
    obtain ⟨pre', hp⟩ := hg (pre ++ [Event.entry r]) post h1
    have h2 := (List.append_inj' hp (by simp)).2
    simpa using h2
  · intro accept prog st reqs pre post h
    exact (hostInv_run accept prog reqs (Host.boot st) (hostInv_boot st)).1 pre post h
  · intro accept sink reqs
    have hi := helloInv_run accept sink reqs (Host.boot (image sink)) (helloInv_boot sink)
    exact ⟨hi.2.2.2.2.2, hi.2.2.2.1⟩

/-- Witness for C5: a host running a hook pair whose first load is rejected
(status `-12`) and whose second load is accepted; the only Exit Hook invocation
of the trace follows the accepted load. -/
theorem exit_never_follows_rejected_load_witness :
    (Host.run (fun _ => true) flaky_drv (Host.boot (image []))
        [Request.load, Request.unload, Request.load, Request.unload]).trace
      = [Event.entry (RetVal.int (-12)), Event.entry (RetVal.int 0)] ++ Event.exit :: []
    ∧ ∃ pre' : List Event,
        [Event.entry (RetVal.int (-12)), Event.entry (RetVal.int 0)]
          = pre' ++ [Event.entry (RetVal.int 0)] :=
  ⟨rfl, exit_never_follows_rejected_load.2.1 (fun _ => true) flaky_drv (image [])
    [Request.load, Request.unload, Request.load, Request.unload]
    [Event.entry (RetVal.int (-12)), Event.entry (RetVal.int 0)] [] rfl⟩

/-- C8: each logging side effect happens exactly once per activation or
deactivation.  In every state the host reaches while running this module, the
entering lines added to the sink are as many as the successful activations so
far, the leaving lines added are as many as the deactivations so far, and the
activations exceed the deactivations by 1 while Active and by 0 while Unloaded.
Booted on an empty sink, the number of entering lines in the sink is the number
of activations, the number of leaving lines is the number of deactivations, and
entering lines minus leaving lines is 1 while Active and 0 while Unloaded. -/
theorem logging_once_per_transition (accept : ModInfo → Bool) (sink : List LogRecord)
    (reqs : List Request) :
    (hello_host accept sink reqs).state.sink.count enteringLine
        = sink.count enteringLine + activations (hello_host accept sink reqs).trace
    ∧ (hello_host accept sink reqs).state.sink.count leavingLine
        = sink.count leavingLine + deactivations (hello_host accept sink reqs).trace
    ∧ activations (hello_host accept sink reqs).trace
        = deactivations (hello_host accept sink reqs).trace
          + (if (hello_host accept sink reqs).activation = Activation.Active then 1 else 0)
    ∧ (hello_host accept [] reqs).state.sink.count enteringLine
        = activations (hello_host accept [] reqs).trace
    ∧ (hello_host accept [] reqs).state.sink.count leavingLine
        = deactivations (hello_host accept [] reqs).trace
    ∧ ((hello_host accept [] reqs).state.sink.count enteringLine : Int)
        - ((hello_host accept [] reqs).state.sink.count leavingLine : Int)
        = (if (hello_host accept [] reqs).activation = Activation.Active then 1 else 0) := by
  have hi : HelloInv sink (hello_host accept sink reqs) :=
    helloInv_run accept sink reqs (Host.boot (image sink)) (helloInv_boot sink)
  have hj : HelloInv [] (hello_host accept [] reqs) :=
    helloInv_run accept [] reqs (Host.boot (image [])) (helloInv_boot [])
  obtain ⟨_, _, he, hv, hc, _⟩ := hi
  obtain ⟨_, _, he0, hv0, hc0, _⟩ := hj
  simp only [List.count_nil, Nat.zero_add] at he0 hv0
  refine ⟨he, hv, hc, he0, hv0, ?_⟩
  rw [he0, hv0, hc0]
  by_cases hact : (hello_host accept [] reqs).activation = Activation.Active
  · simp [hact]
  · simp [hact]

/-- The lifecycle on concrete requests: two full cycles and a third load from
an empty sink leave three entering lines and two leaving lines, the host
Active. -/
theorem lifecycle_example :
    (hello_host (fun _ => true) []
        [Request.load, Request.load, Request.unload, Request.unload,
         Request.load, Request.unload, Request.load]).state.sink
      = [enteringLine, leavingLine, enteringLine, leavingLine, enteringLine]
    ∧ (hello_host (fun _ => true) []
        [Request.load, Request.load, Request.unload, Request.unload,
         Request.load, Request.unload, Request.load]).activation = Activation.Active := by
  exact ⟨rfl, rfl⟩

end HelloDrv
